import Mathlib

/-!
Verification development for the tmail repository (github.com/bassamadnan/tmail).

This file gives a shallow embedding of the core of tmail:
  * the incremental Gmail synchronizer (`src/gmail/client.go`, `Client.StartMonitoring`,
    `applyFilters`, `parseEmailDetails`, `getPlainTextBody`), and
  * the Bubble Tea UI state machine (`src/tui/model.go` / `src/tui/app.go`,
    `Model.Update`, `Model.ensureSelectedVisible`, and helpers), plus
    `truncate` and `formatEmailDate` from `src/tui/utils.go`,
and proves / refutes the specification claims about them.

Modelling conventions:
  * Go `int` is modelled as `Int`; Go integer division (truncation toward zero)
    is `Int.tdiv`.
  * Go `time.Time` is modelled as `Option Int`: `none` is the zero value
    (`IsZero` is `Option.isNone`).
  * Network fetches (`Users.Messages.Get`) are modelled as a function
    `String → Option ProcessedEmail`; `none` is a failed fetch (skipped by the code).
  * Base64 decoding and the individual `time.Parse` format parsers are abstracted
    as function parameters, since the claims quantify over their results only.
  * The repository contains two revisions of several files, separated in the
    sources; where a claim cites a specific variant the cited variant is embedded,
    and both variants of `getPlainTextBody` are embedded (they differ).
-/

namespace Tmail

/-- ProcessedEmail mirrors the Go struct `gmail.ProcessedEmail` (id, headers,
snippet, body, InternalDate used for sorting). `date = none` models the zero
`time.Time`. -/
structure ProcessedEmail where
  id : String
  messageId : String
  from_ : String
  to_ : String
  cc : String
  date : Option Int
  subject : String
  snippet : String
  body : String
  internalDate : Int
deriving DecidableEq, Repr, Inhabited

/-- Filters mirrors `config.Filters`: the two string lists consulted by
`Client.applyFilters` (the body-keyword list is a TODO in the source and unused). -/
structure Filters where
  ignoreSenders : List String
  ignoreKeywordsInSubject : List String
deriving DecidableEq, Repr, Inhabited

/-- Empty filter configuration (what `config.NewManager` starts from when no
filter file exists). -/
def noFilters : Filters := { ignoreSenders := [], ignoreKeywordsInSubject := [] }

/-- applyFilters embeds `Client.applyFilters` (src/gmail/client.go:160-175):
case-insensitive substring match of any ignored sender against From, or any
ignored keyword against Subject; any match excludes. -/
def applyFilters (filters : Filters) (email : ProcessedEmail) : Bool :=
  filters.ignoreSenders.any
    (fun sender => (email.from_.toLower).containsSubstr sender.toLower) ||
  filters.ignoreKeywordsInSubject.any
    (fun keyword => (email.subject.toLower).containsSubstr keyword.toLower)

/-- emitOne models the body of the per-message fetch loop in
`Client.StartMonitoring`: a failed fetch is skipped (`none`), a fetched message
is sent to the channel unless `applyFilters` excludes it. -/
def emitOne (fetch : String → Option ProcessedEmail) (filters : Filters)
    (msgId : String) : Option ProcessedEmail :=
  match fetch msgId with
  | none => none
  | some e => if applyFilters filters e then none else some e

/-- processBatch models a whole fetch loop over `ids` in the given order:
the list of messages actually sent to the channel. -/
def processBatch (fetch : String → Option ProcessedEmail) (filters : Filters)
    (ids : List String) : List ProcessedEmail :=
  ids.filterMap (emitOne fetch filters)

/-- PollResult bundles the locals of one synchronizer cycle:
the baseline after the cycle (`lastMessageId`), the ids classified as new
(`newMessagesToProcess`), and the messages sent to the channel. -/
structure PollResult where
  baselineId : String
  newIds : List String
  emitted : List ProcessedEmail
deriving DecidableEq, Repr

/-- initialStep embeds the initial phase of `Client.StartMonitoring`
(src/gmail/client.go:181-213): on a non-empty newest-first list the baseline is
set to the first (newest) id, unconditionally and independently of the
subsequent fetches, and the listed ids are fetched and emitted in reverse
(oldest-to-newest) order; an empty list leaves the baseline unchanged. -/
def initialStep (fetch : String → Option ProcessedEmail) (filters : Filters)
    (baselineId : String) (ids : List String) : PollResult :=
  match ids with
  | [] => { baselineId := baselineId, newIds := [], emitted := [] }
  | first :: _ =>
    { baselineId := first
      newIds := ids
      emitted := processBatch fetch filters ids.reverse }

/-- pollStep embeds one tick of the poll phase of `Client.StartMonitoring`
(src/gmail/client.go:225-272): an empty list skips the tick; otherwise ids are
collected newest-first until `lastMessageId` is encountered, the collected ids
are fetched and emitted in reverse (oldest-to-newest) order, and if any id was
collected the baseline becomes the list's first (newest) id. -/
def pollStep (fetch : String → Option ProcessedEmail) (filters : Filters)
    (baselineId : String) (ids : List String) : PollResult :=
  match ids with
  | [] => { baselineId := baselineId, newIds := [], emitted := [] }
  | first :: _ =>
    let newMessagesToProcess := ids.takeWhile (fun m => m ≠ baselineId)
    { baselineId := if 0 < newMessagesToProcess.length then first else baselineId
      newIds := newMessagesToProcess
      emitted := processBatch fetch filters newMessagesToProcess.reverse }

/-- pollCycle models one iteration of the poll loop including a failed list
call (`none`), which aborts only the current cycle. -/
def pollCycle (fetch : String → Option ProcessedEmail) (filters : Filters)
    (baselineId : String) (listResult : Option (List String)) : PollResult :=
  match listResult with
  | none => { baselineId := baselineId, newIds := [], emitted := [] }
  | some ids => pollStep fetch filters baselineId ids

/-- runPoll folds the baseline through a sequence of poll cycles. -/
def runPoll (fetch : String → Option ProcessedEmail) (filters : Filters)
    (baselineId : String) (cycles : List (Option (List String))) : String :=
  cycles.foldl (fun b c => (pollCycle fetch filters b c).baselineId) baselineId

/-- DateFormats abstracts the five `time.Parse` layout attempts of the Date
header chain in `Client.parseEmailDetails` (src/gmail/client.go:110-133):
RFC1123Z, "Mon, 2 Jan 2006 15:04:05 -0700 (MST)", "2 Jan 2006 15:04:05 -0700",
"Mon, 2 Jan 2006 15:04:05 -0700" (after stripping known parenthesised zones),
and RFC1123. Each parser returns `none` exactly when `time.Parse` errors. -/
structure DateFormats where
  rfc1123z : String → Option Int
  parenMST : String → Option Int
  noDayName : String → Option Int
  dayNameNoParen : String → Option Int
  rfc1123 : String → Option Int

/-- stripTZParens embeds the chained `strings.ReplaceAll` calls removing the
parenthesised zone names " (UTC)", " (PST)", " (PDT)", " (CET)", " (CEST)". -/
def stripTZParens (v : String) : String :=
  ((((v.replace " (UTC)" "").replace " (PST)" "").replace
      " (PDT)" "").replace " (CET)" "").replace " (CEST)" ""

/-- parseDateChain embeds the Date-header fallback chain of
`Client.parseEmailDetails`: formats are attempted in order; exhausting all of
them leaves the zero time (`none`). -/
def parseDateChain (fmts : DateFormats) (v : String) : Option Int :=
  match fmts.rfc1123z v with
  | some d => some d
  | none =>
    match fmts.parenMST v with
    | some d => some d
    | none =>
      match fmts.noDayName v with
      | some d => some d
      | none =>
        match fmts.dayNameNoParen (stripTZParens v) with
        | some d => some d
        | none => fmts.rfc1123 v

/-- formatEmailDate embeds `formatEmailDate` (src/tui/utils.go:32-44): the zero
time renders as the placeholder "???"; a known time is rendered by the
clock-dependent branch, abstracted as `render`. -/
def formatEmailDate (render : Int → String) (t : Option Int) : String :=
  match t with
  | none => "???"
  | some d => render d

/-- MessagePart models `gmail.MessagePart`: a MIME type, optional base64 body
data (`none` models a nil Body), and child parts. -/
inductive MessagePart where
  | mk (mimeType : String) (bodyData : Option String) (parts : List MessagePart)

/-- mimeType projection of a MessagePart. -/
def MessagePart.mimeType : MessagePart → String
  | .mk mt _ _ => mt

/-- selfPlainBody models the head test of both getPlainTextBody variants: the
node's own decoded body when its type is text/plain with non-empty data and
decoding succeeds; `none` otherwise (including a decode error, which the code
logs and then walks the children). -/
def selfPlainBody (decode : String → Option String) (mimeType : String)
    (bodyData : Option String) : Option String :=
  if mimeType = "text/plain" then
    match bodyData with
    | some d => if d ≠ "" then decode d else none
    | none => none
  else none

mutual
/-- getPlainTextBody embeds the FIRST variant of `getPlainTextBody`
(src/gmail/client.go:142-158): return the node's own decoded text/plain body if
present, else recurse into ALL child parts and return the first non-empty
result, else "". -/
def getPlainTextBody (decode : String → Option String) : MessagePart → String
  | .mk mimeType bodyData parts =>
    match selfPlainBody decode mimeType bodyData with
    | some s => s
    | none => getPlainTextBodyList decode parts
/-- getPlainTextBodyList is the child loop of the first variant: unconditional
descent into every part. -/
def getPlainTextBodyList (decode : String → Option String) :
    List MessagePart → String
  | [] => ""
  | p :: ps =>
    let b := getPlainTextBody decode p
    if b ≠ "" then b else getPlainTextBodyList decode ps
end

/-- goToLower renders strings.ToLower at the character-list level (the
char-by-char lowercasing the Go code performs on ASCII MIME types). -/
def goToLower (s : String) : List Char := s.data.map Char.toLower

/-- descendableMime is the descent condition of the SECOND variant: the child's
lowercased MIME type starts with "text/" or "multipart/" (strings.HasPrefix of
strings.ToLower, rendered on character lists). -/
def descendableMime (p : MessagePart) : Bool :=
  "text/".data.isPrefixOf (goToLower p.mimeType) ||
  "multipart/".data.isPrefixOf (goToLower p.mimeType)

mutual
/-- getPlainTextBody2 embeds the SECOND variant of `getPlainTextBody`
(src/gmail/client.go, second revision, lines 424-443): like the first variant,
but the walk descends only into parts whose type is under text/* or
multipart/*. -/
def getPlainTextBody2 (decode : String → Option String) : MessagePart → String
  | .mk mimeType bodyData parts =>
    match selfPlainBody decode mimeType bodyData with
    | some s => s
    | none => getPlainTextBody2List decode parts
/-- getPlainTextBody2List is the child loop of the second variant: descent is
gated on `descendableMime`. -/
def getPlainTextBody2List (decode : String → Option String) :
    List MessagePart → String
  | [] => ""
  | p :: ps =>
    if descendableMime p then
      let b := getPlainTextBody2 decode p
      if b ≠ "" then b else getPlainTextBody2List decode ps
    else getPlainTextBody2List decode ps
end

mutual
/-- specPlainLeaves follows the SPEC's words (a refinement reference, not a code
translation): the decoded bodies of the text/plain nodes found by a depth-first
walk that descends only into parts whose type is under text/* or multipart/*
ancestry, in walk order. The claimed result of plain-text extraction is the
first element of this list, or "" when it is empty. -/
def specPlainLeaves (decode : String → Option String) : MessagePart → List String
  | .mk mimeType bodyData parts =>
    (match selfPlainBody decode mimeType bodyData with
     | some s => [s]
     | none => []) ++ specPlainLeavesList decode parts
/-- specPlainLeavesList collects leaves of the children admissible for descent. -/
def specPlainLeavesList (decode : String → Option String) :
    List MessagePart → List String
  | [] => []
  | p :: ps =>
    (if descendableMime p then specPlainLeaves decode p else []) ++
      specPlainLeavesList decode ps
end

/-- goSlice models the Go slice expression s[:n] on a byte string: `none` is
the runtime panic raised when n is negative or beyond len(s). -/
def goSlice (s : List UInt8) (n : Int) : Option (List UInt8) :=
  if 0 ≤ n ∧ n ≤ (s.length : Int) then some (s.take n.toNat) else none

/-- dotByte is the byte of the ASCII dot appended by truncate. -/
def dotByte : UInt8 := 46

/-- truncate embeds `truncate` (src/tui/utils.go:18-29) on Go byte strings
(`len` and slicing in Go are byte-based); the Option captures slice-bounds
panics, so totality of the Go function is `truncate s maxLen ≠ none`. -/
def truncate (s : List UInt8) (maxLen : Int) : Option (List UInt8) :=
  if (s.length : Int) ≤ maxLen then some s
  else if maxLen ≤ 0 then some []
  else if maxLen < 3 then goSlice s maxLen
  else (goSlice s (maxLen - 3)).map (fun t => t ++ [dotByte, dotByte, dotByte])

/-- truncateS is a character-level rendition of `truncate` used only to build
status-bar strings inside the UI model (Go's version is byte-level; no claim
depends on the distinction for status text). -/
def truncateS (s : String) (maxLen : Int) : String :=
  if (s.length : Int) ≤ maxLen then s
  else if maxLen ≤ 0 then ""
  else if maxLen < 3 then (s.toList.take maxLen.toNat).asString
  else (s.toList.take (maxLen - 3).toNat).asString ++ "..."

/-- viewState mirrors the `viewState` enum of src/tui/model.go. -/
inductive viewState where
  | viewLoading
  | viewDashboard
  | viewFocusedEmail
deriving DecidableEq, Repr

/-- emailListItemHeight: each list entry occupies 4 display lines. -/
def emailListItemHeight : Int := 4

/-- minListPaneWidth from src/tui/model.go. -/
def minListPaneWidth : Int := 30

/-- minPreviewPaneWidth from src/tui/model.go. -/
def minPreviewPaneWidth : Int := 40

/-- listTitleRenderedHeight models lipgloss.Height(EmailListTitleStyle.Render(" ")):
the style renders one text row plus MarginBottom(1), i.e. 2 rows. -/
def listTitleRenderedHeight : Int := 2

/-- Model mirrors the Bubble Tea `tui.Model` struct (the revision with mouse
support); the channel, config manager and poll interval are environment, not
state, and are omitted. `err = none` models a nil error. -/
structure Model where
  allEmails : List ProcessedEmail
  selectedIdx : Int
  viewportTopLine : Int
  previewScrollPos : Int
  focusedEmailScrollPos : Int
  currentView : viewState
  width : Int
  height : Int
  statusBarText : String
  statusIsError : Bool
  statusIsTemp : Bool
  err : Option String
  isGmailMonitorDone : Bool
deriving DecidableEq, Repr

/-- initialModel mirrors `NewInitialModel`. -/
def initialModel : Model :=
  { allEmails := []
    selectedIdx := 0
    viewportTopLine := 0
    previewScrollPos := 0
    focusedEmailScrollPos := 0
    currentView := viewState.viewLoading
    width := 0
    height := 0
    statusBarText := "Initializing, connecting to Gmail..."
    statusIsError := false
    statusIsTemp := false
    err := none
    isGmailMonitorDone := false }

/-- getVisibleEmailListHeight embeds the Go method: total height minus the
status bar row and the rendered list title, floored at 0. -/
def Model.getVisibleEmailListHeight (m : Model) : Int :=
  let availableHeight := m.height - 1 - listTitleRenderedHeight
  if availableHeight < 0 then 0 else availableHeight

/-- getNumItemsThatFitInList embeds the Go method (itemsPerPage). -/
def Model.getNumItemsThatFitInList (m : Model) : Int :=
  let numFit := Int.tdiv m.getVisibleEmailListHeight emailListItemHeight
  if numFit < 0 then 0 else numFit

/-- ensureSelectedVisible embeds `Model.ensureSelectedVisible`: empty list
resets the viewport; a degenerate page pins the viewport to the selection;
otherwise the viewport is pulled to contain the selection and clamped into
`[0, max 0 (len - itemsThatFit)]`. -/
def Model.ensureSelectedVisible (m : Model) : Model :=
  if m.allEmails.length = 0 then { m with viewportTopLine := 0 }
  else
    let itemsThatFit := m.getNumItemsThatFitInList
    if itemsThatFit ≤ 0 then { m with viewportTopLine := m.selectedIdx }
    else
      let top1 :=
        if m.selectedIdx < m.viewportTopLine then m.selectedIdx
        else if m.selectedIdx ≥ m.viewportTopLine + itemsThatFit then
          m.selectedIdx - itemsThatFit + 1
        else m.viewportTopLine
      let top2 := if top1 < 0 then 0 else top1
      let maxPossibleViewportTop :=
        if (m.allEmails.length : Int) - itemsThatFit < 0 then 0
        else (m.allEmails.length : Int) - itemsThatFit
      let top3 := if top2 > maxPossibleViewportTop then maxPossibleViewportTop else top2
      { m with viewportTopLine := top3 }

/-- updateStatusBar embeds the Go method: Normal status kind with given text. -/
def Model.updateStatusBar (m : Model) (text : String) : Model :=
  { m with statusBarText := text, statusIsError := false, statusIsTemp := false }

/-- updateStatusError embeds the Go method: Error status kind with given text. -/
def Model.updateStatusError (m : Model) (text : String) : Model :=
  { m with statusBarText := text, statusIsError := true, statusIsTemp := false }

/-- showTemporaryStatus embeds the Go method (the scheduled clearTempStatusMsg
is delivered as an ordinary event by the environment). -/
def Model.showTemporaryStatus (m : Model) (text : String) : Model :=
  { m with statusBarText := text, statusIsError := false, statusIsTemp := true }

/-- standardStatusText models the fmt.Sprintf of `setStandardStatus`;
time.Now() and the poll-interval rendering are abstracted to fixed tokens since
no claim depends on the clock digits. -/
def Model.standardStatusText (m : Model) : String :=
  let monitorStatus := if m.isGmailMonitorDone then "Monitor Off" else "Watching"
  let statusMsg :=
    " " ++ monitorStatus ++ " (API Poll: 30s) | now | " ++
      toString m.allEmails.length ++ " emails "
  let keyHints :=
    match m.currentView with
    | viewState.viewDashboard =>
      "[Q/Ctrl+C]:Quit | [jk]:Nav | [Enter]:Full | [KJ]:Scroll Preview | [MouseWheel/Click]:Interact"
    | viewState.viewFocusedEmail => "[Q/Ctrl+C]:Quit | [Esc]:Back | [jk/MouseWheel]:Scroll"
    | viewState.viewLoading => "[Q/Ctrl+C]:Quit"
  statusMsg ++ "| " ++ keyHints

/-- setStandardStatus embeds the Go method: a Temporary status suppresses the
recompute, otherwise the Normal status is rebuilt. -/
def Model.setStandardStatus (m : Model) : Model :=
  if m.statusIsTemp then m else m.updateStatusBar m.standardStatusText

/-- emailIdAt reads the ID at an Int index (used only under the source's bound
guards). -/
def emailIdAt (l : List ProcessedEmail) (i : Int) : String :=
  match l.get? i.toNat with
  | some e => e.id
  | none => ""

/-- bodyAt reads the Body at an Int index (used only under the source's bound
guards). -/
def bodyAt (l : List ProcessedEmail) (i : Int) : String :=
  match l.get? i.toNat with
  | some e => e.body
  | none => ""

/-- bodyLineCount models splitting the body on newlines after normalising
CRLF, as the scroll bounds checks do. -/
def bodyLineCount (body : String) : Int :=
  (((body.replace "\r\n" "\n").splitOn "\n").length : Int)

/-- insertByDateDesc inserts into a descending-by-InternalDate list, after all
entries with an equal or larger key (stability). -/
def insertByDateDesc (e : ProcessedEmail) :
    List ProcessedEmail → List ProcessedEmail
  | [] => [e]
  | x :: xs =>
    if e.internalDate > x.internalDate then e :: x :: xs
    else x :: insertByDateDesc e xs

/-- sortByDateDesc models `sort.SliceStable` with
`less(i,j) = a[i].InternalDate > a[j].InternalDate`: the unique stable sort for
that comparator, realised as an insertion sort. -/
def sortByDateDesc : List ProcessedEmail → List ProcessedEmail
  | [] => []
  | x :: xs => insertByDateDesc x (sortByDateDesc xs)

/-- MouseEventType restricts tea.MouseMsg to the event kinds the handler
inspects. -/
inductive MouseEventType where
  | wheelUp
  | wheelDown
  | leftClick
  | otherMouse
deriving DecidableEq, Repr

/-- Msg mirrors the tea.Msg cases handled by `Model.Update`. -/
inductive Msg where
  | windowSize (w h : Int)
  | key (k : String)
  | mouse (t : MouseEventType) (x y : Int)
  | newEmail (e : ProcessedEmail)
  | monitorStopped
  | errorMsg (s : String)
  | statusTick
  | clearTempStatus
deriving DecidableEq, Repr

/-- listPaneBoundaryX embeds the mouse-handler boundary computation;
`int(float64(w) * 0.35)` is rendered rationally as `(w * 35) tdiv 100` (the
boundary is only ever compared against the cursor column, and no claim depends
on the one-column float rounding difference). -/
def Model.listPaneBoundaryX (m : Model) : Int :=
  let b := Int.tdiv (m.width * 35) 100
  let b := if b < minListPaneWidth then minListPaneWidth else b
  let b :=
    if b > m.width - minPreviewPaneWidth ∧ minPreviewPaneWidth < m.width then
      m.width - minPreviewPaneWidth
    else b
  if b < 0 then 0 else b

/-- handleMouse embeds the tea.MouseMsg case of `Model.Update` (the revision
with mouse support): wheel events move the viewport or a scroll position
directly — without re-clamping the viewport to the selection — and a left
click in the list pane selects the clicked item. -/
def Model.handleMouse (m : Model) (t : MouseEventType) (x y : Int) : Model :=
  let boundary := m.listPaneBoundaryX
  match t with
  | MouseEventType.wheelUp =>
    if m.currentView = viewState.viewDashboard then
      if x < boundary then
        if 0 < m.viewportTopLine then
          { m with viewportTopLine := m.viewportTopLine - 1 }
        else m
      else
        if 0 < m.previewScrollPos then
          { m with previewScrollPos := m.previewScrollPos - 1 }
        else m
    else if m.currentView = viewState.viewFocusedEmail then
      if 0 < m.focusedEmailScrollPos then
        { m with focusedEmailScrollPos := m.focusedEmailScrollPos - 1 }
      else m
    else m
  | MouseEventType.wheelDown =>
    if m.currentView = viewState.viewDashboard then
      if x < boundary then
        let itemsThatFit := m.getNumItemsThatFitInList
        if itemsThatFit < (m.allEmails.length : Int) ∧
            m.viewportTopLine < (m.allEmails.length : Int) - itemsThatFit then
          { m with viewportTopLine := m.viewportTopLine + 1 }
        else m
      else
        if 0 < m.allEmails.length ∧ 0 ≤ m.selectedIdx ∧
            m.selectedIdx < (m.allEmails.length : Int) then
          if m.previewScrollPos < bodyLineCount (bodyAt m.allEmails m.selectedIdx) - 1 then
            { m with previewScrollPos := m.previewScrollPos + 1 }
          else m
        else m
    else if m.currentView = viewState.viewFocusedEmail then
      { m with focusedEmailScrollPos := m.focusedEmailScrollPos + 1 }
    else m
  | MouseEventType.leftClick =>
    if m.currentView = viewState.viewDashboard ∧ x < boundary then
      let clickedItemIndex := Int.tdiv (y - listTitleRenderedHeight) emailListItemHeight
      let actualClickedIdx := m.viewportTopLine + clickedItemIndex
      if 0 ≤ actualClickedIdx ∧ actualClickedIdx < (m.allEmails.length : Int) then
        if m.selectedIdx ≠ actualClickedIdx then
          let msel : Model := { m with selectedIdx := actualClickedIdx, previewScrollPos := 0, focusedEmailScrollPos := 0 }
          (msel.ensureSelectedVisible).setStandardStatus
        else m
      else m
    else m
  | MouseEventType.otherMouse => m

/-- handleKey embeds the tea.KeyMsg case of `Model.Update`; the quit action's
tea.Quit command is environment, only the state mutation is modelled. -/
def Model.handleKey (m : Model) (k : String) : Model :=
  match m.currentView with
  | viewState.viewDashboard =>
    if k = "ctrl+c" ∨ k = "q" then m.updateStatusBar "Quitting..."
    else if k = "up" ∨ k = "k" then
      if 0 < m.selectedIdx then
        let m1 : Model := ({ m with selectedIdx := m.selectedIdx - 1 }).ensureSelectedVisible
        { m1 with previewScrollPos := 0, focusedEmailScrollPos := 0 }
      else m
    else if k = "down" ∨ k = "j" then
      if m.selectedIdx < (m.allEmails.length : Int) - 1 then
        let m1 : Model := ({ m with selectedIdx := m.selectedIdx + 1 }).ensureSelectedVisible
        { m1 with previewScrollPos := 0, focusedEmailScrollPos := 0 }
      else m
    else if k = "enter" then
      if 0 < m.allEmails.length ∧ 0 ≤ m.selectedIdx ∧
          m.selectedIdx < (m.allEmails.length : Int) then
        ({ m with currentView := viewState.viewFocusedEmail, focusedEmailScrollPos := 0 }).setStandardStatus
      else m
    else if k = "K" then
      if 0 < m.previewScrollPos then
        { m with previewScrollPos := m.previewScrollPos - 1 }
      else m
    else if k = "J" then
      if 0 < m.allEmails.length ∧ 0 ≤ m.selectedIdx ∧
          m.selectedIdx < (m.allEmails.length : Int) then
        if m.previewScrollPos < bodyLineCount (bodyAt m.allEmails m.selectedIdx) - 1 then
          { m with previewScrollPos := m.previewScrollPos + 1 }
        else m
      else m
    else m
  | viewState.viewFocusedEmail =>
    if k = "ctrl+c" ∨ k = "q" then m.updateStatusBar "Quitting..."
    else if k = "esc" then
      ({ m with currentView := viewState.viewDashboard }).setStandardStatus
    else if k = "up" ∨ k = "k" then
      if 0 < m.focusedEmailScrollPos then
        { m with focusedEmailScrollPos := m.focusedEmailScrollPos - 1 }
      else m
    else if k = "down" ∨ k = "j" then
      { m with focusedEmailScrollPos := m.focusedEmailScrollPos + 1 }
    else m
  | viewState.viewLoading =>
    if k = "ctrl+c" ∨ k = "q" then m.updateStatusBar "Quitting..." else m

/-- clampSelected is the trailing pair of clamps of the NewEmailMsg case of
`Model.Update`: pull the selection below the length, then up to 0 (n is the
collection length). -/
def clampSelected (n selectedIdx : Int) : Int :=
  let selectedIdx := if selectedIdx ≥ n ∧ 0 < n then n - 1 else selectedIdx
  if selectedIdx < 0 ∧ 0 < n then 0 else selectedIdx

/-- resolveSelected is the selection re-resolution block of the NewEmailMsg
case of `Model.Update`: re-resolve the previously selected id in the re-sorted
list, else seat the selection on the just-inserted message, then clamp into
`[0, len)`. -/
def resolveSelected (allEmails : List ProcessedEmail) (newEmail : ProcessedEmail)
    (oldSelectedEmailID : String) (prevSelected : Int) : Int :=
  let found :=
    if oldSelectedEmailID ≠ "" then
      allEmails.findIdx? (fun e => e.id = oldSelectedEmailID)
    else none
  let newIdxFound := found.isSome
  let selectedIdx :=
    match found with
    | some i => (i : Int)
    | none => prevSelected
  let selectedIdx :=
    if newIdxFound = false ∨ allEmails.length = 1 then
      if 0 < allEmails.length then
        match allEmails.findIdx? (fun e => e.id = newEmail.id) with
        | some i => (i : Int)
        | none => 0
      else 0
    else selectedIdx
  clampSelected (allEmails.length : Int) selectedIdx

/-- handleNewEmail embeds the NewEmailMsg case of `Model.Update`: remember the
selected id, append the new email and stable-sort by descending InternalDate,
re-resolve or re-seat the selection and clamp it (resolveSelected), transition
out of Loading when dimensions are known (else show a temporary status), and
re-clamp the viewport. -/
def Model.handleNewEmail (m : Model) (newEmail : ProcessedEmail) : Model :=
  let oldSelectedEmailID :=
    if 0 < m.allEmails.length ∧ 0 ≤ m.selectedIdx ∧
        m.selectedIdx < (m.allEmails.length : Int) then
      emailIdAt m.allEmails m.selectedIdx
    else ""
  let allEmails := sortByDateDesc (m.allEmails ++ [newEmail])
  let selectedIdx := resolveSelected allEmails newEmail oldSelectedEmailID m.selectedIdx
  let m1 : Model := { m with allEmails := allEmails, selectedIdx := selectedIdx }
  let m2 :=
    if m1.currentView = viewState.viewLoading ∧ 0 < m1.width then
      ({ m1 with currentView := viewState.viewDashboard }).setStandardStatus
    else
      m1.showTemporaryStatus ("New: " ++ truncateS newEmail.subject 30)
  m2.ensureSelectedVisible

/-- update embeds `Model.Update` (src/tui/model.go:106-262 and the mouse
revision in src/tui/app.go): one event in, next state out; command scheduling
(waitForEmailCmd, tickers) is environment and is represented by the incoming
event list. -/
def update (m : Model) (msg : Msg) : Model :=
  match msg with
  | Msg.windowSize w h =>
    let m1 : Model := ({ m with width := w, height := h }).ensureSelectedVisible
    if m1.currentView = viewState.viewLoading ∧ 0 < m1.width then
      if 0 < m1.allEmails.length ∨ m1.isGmailMonitorDone = true then
        ({ m1 with currentView := viewState.viewDashboard }).setStandardStatus
      else m1.updateStatusBar "Waiting for initial emails..."
    else m1
  | Msg.key k => m.handleKey k
  | Msg.mouse t x y => m.handleMouse t x y
  | Msg.newEmail e => m.handleNewEmail e
  | Msg.monitorStopped =>
    let m1 : Model := { m with isGmailMonitorDone := true }
    if m1.currentView = viewState.viewLoading then
      ({ m1 with currentView := viewState.viewDashboard }).updateStatusBar
        "Email monitoring stopped. No new emails will be fetched."
    else if m1.statusIsTemp then m1
    else m1.setStandardStatus
  | Msg.errorMsg s =>
    ({ m with err := some s }).updateStatusError ("Error: " ++ s)
  | Msg.statusTick =>
    if m.statusIsTemp = false ∧ m.currentView ≠ viewState.viewLoading then
      m.setStandardStatus
    else m
  | Msg.clearTempStatus =>
    if m.statusIsTemp then ({ m with statusIsTemp := false }).setStandardStatus
    else m

/-- processEvents folds the single-threaded event loop over an event list. -/
def processEvents (msgs : List Msg) : Model :=
  msgs.foldl update initialModel

/-- mkTestEmail builds a minimal email for a given id (used as a concrete
fetch result in scenario instances). -/
def mkTestEmail (i : String) : ProcessedEmail :=
  { id := i, messageId := i, from_ := "", to_ := "", cc := "", date := none,
    subject := "", snippet := "", body := "", internalDate := 0 }

lemma applyFilters_noFilters (e : ProcessedEmail) : applyFilters noFilters e = false := by
  simp [applyFilters, noFilters]

lemma processBatch_total_map (g : String → ProcessedEmail) (ids : List String) :
    processBatch (fun i => some (g i)) noFilters ids = ids.map g := by
  induction ids with
  | nil => rfl
  | cons x xs ih =>
    simp [processBatch, List.filterMap_cons, emitOne, applyFilters_noFilters] at ih ⊢
    exact ih

lemma takeWhile_ne_eq_take_indexOf (b : String) (l : List String) :
    l.takeWhile (fun m => !decide (m = b)) = l.take (l.indexOf b) := by
  induction l with
  | nil => rfl
  | cons x xs ih =>
    by_cases h : x = b
    · subst h
      simp [List.takeWhile_cons, List.indexOf_cons]
    · simp [List.takeWhile_cons, List.indexOf_cons, h, ih]

/-- C2: in the poll phase, on a non-empty newest-first list the ids strictly
before the first occurrence of the stored baseline (the whole list when absent)
are exactly the ones classified as new; with successful fetches and no
exclusions they are emitted oldest-to-newest; and after the cycle the baseline
is the list's first (newest) id. The final conjunct is the spec's Scenario B:
polling [D, C, B] with baseline C classifies [D] as new, emits D, and moves the
baseline to D. -/
theorem pollStep_classification (fetch : String → Option ProcessedEmail)
    (filters : Filters) (b x : String) (rest : List String)
    (g : String → ProcessedEmail) :
    (pollStep fetch filters b (x :: rest)).baselineId = x ∧
    (pollStep fetch filters b (x :: rest)).newIds =
      (x :: rest).take ((x :: rest).indexOf b) ∧
    (pollStep (fun i => some (g i)) noFilters b (x :: rest)).emitted =
      (((x :: rest).take ((x :: rest).indexOf b)).reverse).map g ∧
    pollStep (fun i => some (g i)) noFilters "C" ["D", "C", "B"] =
      { baselineId := "D", newIds := ["D"], emitted := [g "D"] } := by
  refine ⟨?_, ?_, ?_, ?_⟩
  · by_cases h : x = b
    · subst h
      simp [pollStep, List.takeWhile_cons]
    · simp [pollStep, List.takeWhile_cons, h]
  · simpa [pollStep] using takeWhile_ne_eq_take_indexOf b (x :: rest)
  · simp [pollStep, processBatch_total_map, takeWhile_ne_eq_take_indexOf,
      List.map_take]
  · simp [pollStep, List.takeWhile_cons, processBatch, List.filterMap_cons,
      emitOne, applyFilters_noFilters]

/-- C3: in the initial phase, on a non-empty newest-first list the baseline is
set to the first (newest) id — for every fetch function, i.e. independently of
(hence before) any body fetch — and with successful fetches and no exclusions
the listed messages are emitted in oldest-to-newest order. The final conjunct
is the spec's Scenario A: ListRecent gives [C, B, A], emission order is
A, B, C and the baseline becomes C. -/
theorem initialStep_baseline_first (fetch : String → Option ProcessedEmail)
    (filters : Filters) (b x : String) (rest : List String)
    (g : String → ProcessedEmail) :
    (initialStep fetch filters b (x :: rest)).baselineId = x ∧
    (initialStep (fun i => some (g i)) noFilters b (x :: rest)).emitted =
      ((x :: rest).reverse).map g ∧
    initialStep (fun i => some (g i)) noFilters "" ["C", "B", "A"] =
      { baselineId := "C", newIds := ["C", "B", "A"],
        emitted := [g "A", g "B", g "C"] } := by
  refine ⟨rfl, ?_, ?_⟩
  · simp [initialStep, processBatch_total_map]
  · simp [initialStep, processBatch, List.filterMap_cons, emitOne,
      applyFilters_noFilters]

lemma pollCycle_baseline_cases (fetch : String → Option ProcessedEmail)
    (filters : Filters) (b : String) (inp : Option (List String))
    (hb : b ≠ "") (hinp : ∀ ids, inp = some ids → "" ∉ ids) :
    ((pollCycle fetch filters b inp).baselineId = b ∨
      ∃ ids, inp = some ids ∧ ids ≠ [] ∧
        (pollCycle fetch filters b inp).baselineId = ids.headD "") ∧
    (pollCycle fetch filters b inp).baselineId ≠ "" := by
  match inp with
  | none => exact ⟨Or.inl rfl, hb⟩
  | some [] => exact ⟨Or.inl rfl, hb⟩
  | some (x :: rest) =>
    have hx : x ≠ "" := by
      intro hx
      exact hinp (x :: rest) rfl (by simp [hx])
    have hpoll : (pollCycle fetch filters b (some (x :: rest))).baselineId =
        if 0 < ((x :: rest).takeWhile (fun m => m ≠ b)).length then x else b := rfl
    by_cases h : 0 < ((x :: rest).takeWhile (fun m => m ≠ b)).length
    · rw [hpoll, if_pos h]
      exact ⟨Or.inr ⟨x :: rest, rfl, by simp, rfl⟩, hx⟩
    · rw [hpoll, if_neg h]
      exact ⟨Or.inl rfl, hb⟩

/-- C4: a non-empty baseline is, at every poll cycle, either unchanged or
replaced by the first (newest) id of a non-empty list result; it never becomes
empty at a cycle, nor across any run of cycles (assuming the remote never
returns an empty message id). -/
theorem baseline_monotone (fetch : String → Option ProcessedEmail)
    (filters : Filters) (b : String) (inp : Option (List String))
    (cycles : List (Option (List String)))
    (hb : b ≠ "")
    (hinp : ∀ ids, inp = some ids → "" ∉ ids)
    (hcyc : ∀ c ∈ cycles, ∀ ids, c = some ids → "" ∉ ids) :
    ((pollCycle fetch filters b inp).baselineId = b ∨
      ∃ ids, inp = some ids ∧ ids ≠ [] ∧
        (pollCycle fetch filters b inp).baselineId = ids.headD "") ∧
    (pollCycle fetch filters b inp).baselineId ≠ "" ∧
    runPoll fetch filters b cycles ≠ "" := by
  obtain ⟨hcases, hne⟩ := pollCycle_baseline_cases fetch filters b inp hb hinp
  refine ⟨hcases, hne, ?_⟩
  clear hcases hne hinp
  induction cycles generalizing b with
  | nil => exact hb
  | cons c cs ih =>
    have hc : ∀ ids, c = some ids → "" ∉ ids := hcyc c (by simp)
    have hstep := (pollCycle_baseline_cases fetch filters b c hb hc).2
    have hcs : ∀ d ∈ cs, ∀ ids, d = some ids → "" ∉ ids := by
      intro d hd
      exact hcyc d (by simp [hd])
    simpa [runPoll] using ih (pollCycle fetch filters b c).baselineId hstep hcs

/-- Witness for baseline_monotone at a concrete cycle: baseline "C", a poll
returning [D, C], and a later cycle returning [E, D]. -/
theorem baseline_monotone_witness :
    ((pollCycle (fun _ => none) noFilters "C" (some ["D", "C"])).baselineId = "C" ∨
      ∃ ids, some ["D", "C"] = some ids ∧ ids ≠ [] ∧
        (pollCycle (fun _ => none) noFilters "C" (some ["D", "C"])).baselineId =
          ids.headD "") ∧
    (pollCycle (fun _ => none) noFilters "C" (some ["D", "C"])).baselineId ≠ "" ∧
    runPoll (fun _ => none) noFilters "C" [some ["E", "D"]] ≠ "" := by
  refine baseline_monotone (fun _ => none) noFilters "C" (some ["D", "C"])
    [some ["E", "D"]] (by decide) ?_ ?_
  · intro ids h
    cases h
    decide
  · intro c hc ids h
    simp only [List.mem_singleton] at hc
    subst hc
    cases h
    decide

/-- C8: the Date-header parse attempts its fallback formats in order; when
every fallback fails the message date is the explicit zero/unknown state, and
the list renderer displays the "???" placeholder for it (the embedding is
total, so no input crashes). -/
theorem parseDateChain_exhausted_unknown (fmts : DateFormats) (v : String)
    (render : Int → String)
    (h1 : fmts.rfc1123z v = none) (h2 : fmts.parenMST v = none)
    (h3 : fmts.noDayName v = none)
    (h4 : fmts.dayNameNoParen (stripTZParens v) = none)
    (h5 : fmts.rfc1123 v = none) :
    parseDateChain fmts v = none ∧
    formatEmailDate render (parseDateChain fmts v) = "???" := by
  have hnone : parseDateChain fmts v = none := by
    simp [parseDateChain, h1, h2, h3, h4, h5]
  exact ⟨hnone, by rw [hnone]; rfl⟩

/-- noneFormats: a format table on which every layout fails. -/
def noneFormats : DateFormats :=
  { rfc1123z := fun _ => none, parenMST := fun _ => none,
    noDayName := fun _ => none, dayNameNoParen := fun _ => none,
    rfc1123 := fun _ => none }

/-- Witness for parseDateChain_exhausted_unknown on a concrete unparsable
header value. -/
theorem parseDateChain_exhausted_unknown_witness :
    parseDateChain noneFormats "not a date" = none ∧
    formatEmailDate (fun _ => "") (parseDateChain noneFormats "not a date") = "???" :=
  parseDateChain_exhausted_unknown noneFormats "not a date" (fun _ => "")
    rfl rfl rfl rfl rfl

/-- C10: truncate is total for every byte string and every maxLen, including
zero and negative values — the Go slice bounds are always respected — and it
returns its input unchanged when len(s) ≤ maxLen, else a byte string of length
at most max(maxLen, 0). -/
theorem truncate_total_safe (s : List UInt8) (maxLen : Int) :
    ∃ r, truncate s maxLen = some r ∧
      (if (s.length : Int) ≤ maxLen then r = s
       else (r.length : Int) ≤ max maxLen 0) := by
  by_cases h1 : (s.length : Int) ≤ maxLen
  · exact ⟨s, by simp [truncate, h1]⟩
  · by_cases h2 : maxLen ≤ 0
    · refine ⟨[], ?_⟩
      simp [truncate, h1, h2]
    · by_cases h3 : maxLen < 3
      · refine ⟨s.take maxLen.toNat, ?_⟩
        have hb : 0 ≤ maxLen ∧ maxLen ≤ (s.length : Int) := by omega
        simp [truncate, h1, h2, h3, goSlice, hb, List.length_take]
      · refine ⟨s.take (maxLen - 3).toNat ++ [dotByte, dotByte, dotByte], ?_⟩
        have hb : 0 ≤ maxLen - 3 ∧ maxLen - 3 ≤ (s.length : Int) := by omega
        simp [truncate, h1, h2, h3, goSlice, hb, List.length_take]

lemma selfPlainBody_some_decoded (decode : String → Option String)
    (mt : String) (bd : Option String) (s : String)
    (h : selfPlainBody decode mt bd = some s) : ∃ d, decode d = some s := by
  unfold selfPlainBody at h
  split at h
  · split at h
    · split at h
      · exact ⟨_, h⟩
      · exact absurd h (by simp)
    · exact absurd h (by simp)
  · exact absurd h (by simp)

mutual
theorem body2_aux (decode : String → Option String)
    (hd : ∀ d x, decode d = some x → x ≠ "") :
    (p : MessagePart) →
    getPlainTextBody2 decode p = (specPlainLeaves decode p).headD "" ∧
      "" ∉ specPlainLeaves decode p
  | .mk mt bd parts => by
    obtain ⟨hlist, hmem⟩ := body2list_aux decode hd parts
    cases hself : selfPlainBody decode mt bd with
    | some s =>
      have hs : s ≠ "" := by
        obtain ⟨d, hdec⟩ := selfPlainBody_some_decoded decode mt bd s hself
        exact hd d s hdec
      constructor
      · simp [getPlainTextBody2, specPlainLeaves, hself, List.headD]
      · simp only [specPlainLeaves, hself, List.cons_append, List.nil_append,
          List.mem_cons, not_or]
        exact ⟨fun h => hs h.symm, hmem⟩
    | none =>
      constructor
      · simp [getPlainTextBody2, specPlainLeaves, hself, hlist]
      · simpa [specPlainLeaves, hself] using hmem
theorem body2list_aux (decode : String → Option String)
    (hd : ∀ d x, decode d = some x → x ≠ "") :
    (ps : List MessagePart) →
    getPlainTextBody2List decode ps = (specPlainLeavesList decode ps).headD "" ∧
      "" ∉ specPlainLeavesList decode ps
  | [] => by simp [getPlainTextBody2List, specPlainLeavesList]
  | p :: ps => by
    obtain ⟨hp, hpmem⟩ := body2_aux decode hd p
    obtain ⟨hps, hpsmem⟩ := body2list_aux decode hd ps
    by_cases hdm : descendableMime p
    · cases hleaves : specPlainLeaves decode p with
      | nil =>
        have hb : getPlainTextBody2 decode p = "" := by
          rw [hp, hleaves]
          rfl
        constructor
        · simp [getPlainTextBody2List, specPlainLeavesList, hdm, hb, hleaves, hps]
        · simpa [specPlainLeavesList, hdm, hleaves] using hpsmem
      | cons a as =>
        rw [hleaves] at hpmem
        simp only [List.mem_cons, not_or] at hpmem
        have ha : a ≠ "" := fun h => hpmem.1 h.symm
        have hb : getPlainTextBody2 decode p = a := by
          rw [hp, hleaves]
          rfl
        constructor
        · simp [getPlainTextBody2List, specPlainLeavesList, hdm, hb, ha, hleaves,
            List.headD]
        · simp only [specPlainLeavesList, hdm, if_pos, hleaves, List.cons_append,
            List.mem_cons, not_or, List.mem_append]
          exact ⟨hpmem.1, hpmem.2, hpsmem⟩
    · constructor
      · simp [getPlainTextBody2List, specPlainLeavesList, hdm, hps]
      · simpa [specPlainLeavesList, hdm] using hpsmem
end

/-- C9 (amended): the SECOND variant of getPlainTextBody returns the decoded
body of the first text/plain leaf found by the depth-first walk that descends
only into parts whose type is under text/* or multipart/* ancestry, and the
empty string when no such leaf exists (assuming base64 decoding never yields
an empty string from non-empty data, which holds of real base64). -/
theorem getPlainTextBody2_first_leaf (decode : String → Option String)
    (hd : ∀ d x, decode d = some x → x ≠ "") (p : MessagePart) :
    getPlainTextBody2 decode p = (specPlainLeaves decode p).headD "" :=
  (body2_aux decode hd p).1

/-- decX: a concrete decoder that never returns an empty string. -/
def decX : String → Option String := fun d => some ("x" ++ d)

/-- witnessPart: a multipart message with a single text/plain child. -/
def witnessPart : MessagePart :=
  .mk "multipart/alternative" none [.mk "text/plain" (some "hi") []]

/-- Witness for getPlainTextBody2_first_leaf on a concrete tree and decoder. -/
theorem getPlainTextBody2_first_leaf_witness :
    getPlainTextBody2 decX witnessPart = (specPlainLeaves decX witnessPart).headD "" ∧
    getPlainTextBody2 decX witnessPart = "xhi" := by
  have hd : ∀ d x, decX d = some x → x ≠ "" := by
    intro d x h hx
    simp only [decX, Option.some.injEq] at h
    have h2 : x.length = 0 := by
      subst hx
      rfl
    rw [← h, String.length_append] at h2
    have hx1 : "x".length = 1 := rfl
    omega
  refine ⟨getPlainTextBody2_first_leaf decX hd witnessPart, ?_⟩
  simp [getPlainTextBody2, getPlainTextBody2List, witnessPart, decX,
    selfPlainBody, descendableMime, goToLower, MessagePart.mimeType]

/-- partTree0: a text/plain leaf hidden below an application/* part — outside
text/* or multipart/* ancestry. -/
def partTree0 : MessagePart :=
  .mk "multipart/mixed" none
    [.mk "application/octet-stream" none [.mk "text/plain" (some "hello") []]]

/-- C9 counterexample: the FIRST getPlainTextBody variant descends into every
part regardless of MIME type: on partTree0 it returns the body found under
application/* ancestry, which the restricted walk described by the claim does
not visit (its leaf list is empty, and the second variant accordingly returns
""). -/
theorem C9_counterexample :
    getPlainTextBody Option.some partTree0 = "hello" ∧
    specPlainLeaves Option.some partTree0 = [] ∧
    getPlainTextBody2 Option.some partTree0 = "" := by
  refine ⟨?_, ?_, ?_⟩
  · simp [getPlainTextBody, getPlainTextBodyList, partTree0, selfPlainBody]
  · simp [specPlainLeaves, specPlainLeavesList, partTree0, selfPlainBody,
      descendableMime, goToLower, MessagePart.mimeType]
  · simp [getPlainTextBody2, getPlainTextBody2List, partTree0, selfPlainBody,
      descendableMime, goToLower, MessagePart.mimeType]

section ModelLemmas

@[simp] lemma ensure_allEmails (m : Model) :
    m.ensureSelectedVisible.allEmails = m.allEmails := by
  unfold Model.ensureSelectedVisible
  dsimp only
  repeat' split
  all_goals rfl

@[simp] lemma ensure_selectedIdx (m : Model) :
    m.ensureSelectedVisible.selectedIdx = m.selectedIdx := by
  unfold Model.ensureSelectedVisible
  dsimp only
  repeat' split
  all_goals rfl

@[simp] lemma ensure_currentView (m : Model) :
    m.ensureSelectedVisible.currentView = m.currentView := by
  unfold Model.ensureSelectedVisible
  dsimp only
  repeat' split
  all_goals rfl

@[simp] lemma ensure_width (m : Model) :
    m.ensureSelectedVisible.width = m.width := by
  unfold Model.ensureSelectedVisible
  dsimp only
  repeat' split
  all_goals rfl

@[simp] lemma ensure_height (m : Model) :
    m.ensureSelectedVisible.height = m.height := by
  unfold Model.ensureSelectedVisible
  dsimp only
  repeat' split
  all_goals rfl

@[simp] lemma ensure_err (m : Model) :
    m.ensureSelectedVisible.err = m.err := by
  unfold Model.ensureSelectedVisible
  dsimp only
  repeat' split
  all_goals rfl

@[simp] lemma ensure_done (m : Model) :
    m.ensureSelectedVisible.isGmailMonitorDone = m.isGmailMonitorDone := by
  unfold Model.ensureSelectedVisible
  dsimp only
  repeat' split
  all_goals rfl

@[simp] lemma ensure_statusIsError (m : Model) :
    m.ensureSelectedVisible.statusIsError = m.statusIsError := by
  unfold Model.ensureSelectedVisible
  dsimp only
  repeat' split
  all_goals rfl

@[simp] lemma ensure_statusIsTemp (m : Model) :
    m.ensureSelectedVisible.statusIsTemp = m.statusIsTemp := by
  unfold Model.ensureSelectedVisible
  dsimp only
  repeat' split
  all_goals rfl

@[simp] lemma setStd_allEmails (m : Model) :
    m.setStandardStatus.allEmails = m.allEmails := by
  unfold Model.setStandardStatus Model.updateStatusBar
  split <;> rfl

@[simp] lemma setStd_selectedIdx (m : Model) :
    m.setStandardStatus.selectedIdx = m.selectedIdx := by
  unfold Model.setStandardStatus Model.updateStatusBar
  split <;> rfl

@[simp] lemma setStd_viewportTopLine (m : Model) :
    m.setStandardStatus.viewportTopLine = m.viewportTopLine := by
  unfold Model.setStandardStatus Model.updateStatusBar
  split <;> rfl

@[simp] lemma setStd_currentView (m : Model) :
    m.setStandardStatus.currentView = m.currentView := by
  unfold Model.setStandardStatus Model.updateStatusBar
  split <;> rfl

@[simp] lemma setStd_width (m : Model) :
    m.setStandardStatus.width = m.width := by
  unfold Model.setStandardStatus Model.updateStatusBar
  split <;> rfl

@[simp] lemma setStd_height (m : Model) :
    m.setStandardStatus.height = m.height := by
  unfold Model.setStandardStatus Model.updateStatusBar
  split <;> rfl

@[simp] lemma setStd_err (m : Model) :
    m.setStandardStatus.err = m.err := by
  unfold Model.setStandardStatus Model.updateStatusBar
  split <;> rfl

@[simp] lemma setStd_done (m : Model) :
    m.setStandardStatus.isGmailMonitorDone = m.isGmailMonitorDone := by
  unfold Model.setStandardStatus Model.updateStatusBar
  split <;> rfl

@[simp] lemma setStd_statusIsTemp (m : Model) :
    m.setStandardStatus.statusIsTemp = m.statusIsTemp := by
  unfold Model.setStandardStatus Model.updateStatusBar
  split
  · rfl
  · simp_all

lemma setStd_statusIsError (m : Model) (h : m.statusIsTemp = false) :
    m.setStandardStatus.statusIsError = false := by
  unfold Model.setStandardStatus Model.updateStatusBar
  split <;> simp_all

lemma setStd_statusBarText (m : Model) (h : m.statusIsTemp = false) :
    m.setStandardStatus.statusBarText = m.standardStatusText := by
  unfold Model.setStandardStatus Model.updateStatusBar
  split <;> simp_all

@[simp] lemma updateStatusBar_proj (m : Model) (t : String) :
    (m.updateStatusBar t).allEmails = m.allEmails ∧
    (m.updateStatusBar t).selectedIdx = m.selectedIdx ∧
    (m.updateStatusBar t).viewportTopLine = m.viewportTopLine ∧
    (m.updateStatusBar t).currentView = m.currentView ∧
    (m.updateStatusBar t).width = m.width ∧
    (m.updateStatusBar t).height = m.height ∧
    (m.updateStatusBar t).err = m.err ∧
    (m.updateStatusBar t).isGmailMonitorDone = m.isGmailMonitorDone :=
  ⟨rfl, rfl, rfl, rfl, rfl, rfl, rfl, rfl⟩

@[simp] lemma showTemp_proj (m : Model) (t : String) :
    (m.showTemporaryStatus t).allEmails = m.allEmails ∧
    (m.showTemporaryStatus t).selectedIdx = m.selectedIdx ∧
    (m.showTemporaryStatus t).currentView = m.currentView ∧
    (m.showTemporaryStatus t).width = m.width ∧
    (m.showTemporaryStatus t).height = m.height ∧
    (m.showTemporaryStatus t).err = m.err ∧
    (m.showTemporaryStatus t).isGmailMonitorDone = m.isGmailMonitorDone :=
  ⟨rfl, rfl, rfl, rfl, rfl, rfl, rfl⟩

end ModelLemmas

lemma insertByDateDesc_perm (e : ProcessedEmail) (l : List ProcessedEmail) :
    (insertByDateDesc e l).Perm (e :: l) := by
  induction l with
  | nil => exact List.Perm.refl _
  | cons x xs ih =>
    unfold insertByDateDesc
    split
    · exact List.Perm.refl _
    · exact (ih.cons x).trans (List.Perm.swap e x xs)

lemma sortByDateDesc_perm (l : List ProcessedEmail) :
    (sortByDateDesc l).Perm l := by
  induction l with
  | nil => exact List.Perm.refl _
  | cons x xs ih => exact (insertByDateDesc_perm x (sortByDateDesc xs)).trans (ih.cons x)

lemma sortByDateDesc_length (l : List ProcessedEmail) :
    (sortByDateDesc l).length = l.length :=
  (sortByDateDesc_perm l).length_eq

lemma handleKey_proj (m : Model) (k : String) :
    (m.handleKey k).allEmails = m.allEmails ∧
    (m.handleKey k).width = m.width ∧
    (m.handleKey k).height = m.height ∧
    (m.handleKey k).err = m.err ∧
    (m.handleKey k).isGmailMonitorDone = m.isGmailMonitorDone := by
  unfold Model.handleKey
  cases m.currentView <;> dsimp only <;> repeat' split
  all_goals simp [Model.updateStatusBar]

lemma handleKey_view (m : Model) (k : String) :
    (m.handleKey k).currentView = viewState.viewLoading ↔
      m.currentView = viewState.viewLoading := by
  unfold Model.handleKey
  cases hcv : m.currentView <;> dsimp only <;> repeat' split
  all_goals simp_all [Model.updateStatusBar]

lemma handleKey_selectedIdx (m : Model) (k : String) :
    (m.handleKey k).selectedIdx = m.selectedIdx ∨
    ((m.handleKey k).selectedIdx = m.selectedIdx - 1 ∧ 0 < m.selectedIdx) ∨
    ((m.handleKey k).selectedIdx = m.selectedIdx + 1 ∧
      m.selectedIdx < (m.allEmails.length : Int) - 1) := by
  unfold Model.handleKey
  cases m.currentView <;> dsimp only <;> repeat' split
  all_goals simp_all [Model.updateStatusBar]

lemma handleMouse_proj (m : Model) (t : MouseEventType) (x y : Int) :
    (m.handleMouse t x y).allEmails = m.allEmails ∧
    (m.handleMouse t x y).width = m.width ∧
    (m.handleMouse t x y).height = m.height ∧
    (m.handleMouse t x y).err = m.err ∧
    (m.handleMouse t x y).isGmailMonitorDone = m.isGmailMonitorDone ∧
    (m.handleMouse t x y).currentView = m.currentView := by
  unfold Model.handleMouse
  cases t <;> dsimp only <;> repeat' split
  all_goals simp

lemma handleMouse_selectedIdx (m : Model) (t : MouseEventType) (x y : Int) :
    (m.handleMouse t x y).selectedIdx = m.selectedIdx ∨
    (0 ≤ (m.handleMouse t x y).selectedIdx ∧
      (m.handleMouse t x y).selectedIdx < (m.allEmails.length : Int)) := by
  unfold Model.handleMouse
  cases t <;> dsimp only <;> repeat' split
  all_goals simp_all

lemma clampSelected_range (n s : Int) (hn : 0 < n) :
    0 ≤ clampSelected n s ∧ clampSelected n s < n := by
  unfold clampSelected
  dsimp only
  repeat' split
  all_goals omega

lemma resolveSelected_range (allEmails : List ProcessedEmail)
    (newEmail : ProcessedEmail) (oldId : String) (prev : Int)
    (h : 0 < allEmails.length) :
    0 ≤ resolveSelected allEmails newEmail oldId prev ∧
    resolveSelected allEmails newEmail oldId prev < (allEmails.length : Int) := by
  unfold resolveSelected
  exact clampSelected_range _ _ (by exact_mod_cast h)

lemma handleNewEmail_char (m : Model) (e : ProcessedEmail) :
    (m.handleNewEmail e).allEmails = sortByDateDesc (m.allEmails ++ [e]) ∧
    (m.handleNewEmail e).width = m.width ∧
    (m.handleNewEmail e).height = m.height ∧
    (m.handleNewEmail e).err = m.err ∧
    (m.handleNewEmail e).isGmailMonitorDone = m.isGmailMonitorDone ∧
    (m.handleNewEmail e).selectedIdx =
      resolveSelected (sortByDateDesc (m.allEmails ++ [e])) e
        (if 0 < m.allEmails.length ∧ 0 ≤ m.selectedIdx ∧
            m.selectedIdx < (m.allEmails.length : Int) then
          emailIdAt m.allEmails m.selectedIdx
        else "") m.selectedIdx := by
  unfold Model.handleNewEmail
  dsimp only
  repeat' split
  all_goals simp [Model.showTemporaryStatus]

lemma handleNewEmail_selectedIdx (m : Model) (e : ProcessedEmail) :
    0 ≤ (m.handleNewEmail e).selectedIdx ∧
    (m.handleNewEmail e).selectedIdx <
      ((m.handleNewEmail e).allEmails.length : Int) := by
  have hc := handleNewEmail_char m e
  have hlen : 0 < (sortByDateDesc (m.allEmails ++ [e])).length := by
    simp [sortByDateDesc_length]
  have hr := resolveSelected_range (sortByDateDesc (m.allEmails ++ [e])) e
    (if 0 < m.allEmails.length ∧ 0 ≤ m.selectedIdx ∧
        m.selectedIdx < (m.allEmails.length : Int) then
      emailIdAt m.allEmails m.selectedIdx
    else "") m.selectedIdx hlen
  rw [hc.1, hc.2.2.2.2.2]
  exact hr

lemma handleNewEmail_view (m : Model) (e : ProcessedEmail) :
    if m.currentView = viewState.viewLoading ∧ 0 < m.width then
      (m.handleNewEmail e).currentView = viewState.viewDashboard
    else (m.handleNewEmail e).currentView = m.currentView := by
  unfold Model.handleNewEmail
  dsimp only
  repeat' split
  all_goals simp_all [Model.showTemporaryStatus]

/-- loadingInv: in Loading view with known dimensions there is neither data
nor a stopped signal (else the UI would have left the loading screen). -/
def loadingInv (m : Model) : Prop :=
  m.currentView = viewState.viewLoading → 0 < m.width →
    m.allEmails = [] ∧ m.isGmailMonitorDone = false

lemma monitorStopped_view (m : Model) :
    (update m Msg.monitorStopped).currentView ≠ viewState.viewLoading := by
  simp only [update]
  split
  · simp [Model.updateStatusBar]
  · rename_i h1
    split
    · simpa using h1
    · simpa using h1

lemma loadingInv_update (m : Model) (msg : Msg) (h : loadingInv m) :
    loadingInv (update m msg) := by
  cases msg with
  | windowSize w hh =>
    simp only [update]
    split
    · rename_i hc1
      split
      · intro hv
        simp at hv
      · rename_i hc2
        intro hv hw
        simp only [not_or] at hc2
        constructor
        · have : ¬0 < ({ m with width := w, height := hh } :
              Model).ensureSelectedVisible.allEmails.length := hc2.1
          simp only [ensure_allEmails] at this
          have hz : m.allEmails.length = 0 := by omega
          simpa using List.length_eq_zero.mp hz
        · have := hc2.2
          simp only [ensure_done] at this
          simpa using this
    · rename_i hc1
      intro hv hw
      simp only [ensure_currentView, ensure_width] at hv hw hc1
      exact absurd ⟨hv, hw⟩ hc1
  | key k =>
    have heq : update m (Msg.key k) = m.handleKey k := rfl
    rw [heq]
    intro hv hw
    have hv' : m.currentView = viewState.viewLoading := (handleKey_view m k).mp hv
    have hw' : 0 < m.width := by
      rw [(handleKey_proj m k).2.1] at hw
      exact hw
    have hres := h hv' hw'
    refine ⟨?_, ?_⟩
    · rw [(handleKey_proj m k).1]
      exact hres.1
    · rw [(handleKey_proj m k).2.2.2.2]
      exact hres.2
  | mouse t x y =>
    have heq : update m (Msg.mouse t x y) = m.handleMouse t x y := rfl
    rw [heq]
    intro hv hw
    have hv' : m.currentView = viewState.viewLoading := by
      rw [(handleMouse_proj m t x y).2.2.2.2.2] at hv
      exact hv
    have hw' : 0 < m.width := by
      rw [(handleMouse_proj m t x y).2.1] at hw
      exact hw
    have hres := h hv' hw'
    refine ⟨?_, ?_⟩
    · rw [(handleMouse_proj m t x y).1]
      exact hres.1
    · rw [(handleMouse_proj m t x y).2.2.2.2.1]
      exact hres.2
  | newEmail e =>
    have heq : update m (Msg.newEmail e) = m.handleNewEmail e := rfl
    rw [heq]
    intro hv hw
    have hview := handleNewEmail_view m e
    split at hview
    · rw [hview] at hv
      simp at hv
    · rename_i hc
      rw [hview] at hv
      have hw' : 0 < m.width := by
        rw [(handleNewEmail_char m e).2.1] at hw
        exact hw
      exact (hc ⟨hv, hw'⟩).elim
  | monitorStopped =>
    intro hv
    exact absurd hv (monitorStopped_view m)
  | errorMsg s =>
    intro hv hw
    have hres := h (by simpa [update, Model.updateStatusError] using hv)
      (by simpa [update, Model.updateStatusError] using hw)
    simpa [update, Model.updateStatusError] using hres
  | statusTick =>
    simp only [update]
    split
    · rename_i hc
      intro hv
      rw [setStd_currentView] at hv
      exact absurd hv hc.2
    · exact h
  | clearTempStatus =>
    simp only [update]
    split
    · intro hv hw
      have hres := h (by simpa using hv) (by simpa using hw)
      simpa using hres
    · exact h

lemma loadingInv_processEvents (msgs : List Msg) : loadingInv (processEvents msgs) := by
  have haux : ∀ (l : List Msg) (m : Model), loadingInv m → loadingInv (l.foldl update m) := by
    intro l
    induction l with
    | nil => exact fun m h => h
    | cons a l ih => exact fun m h => ih _ (loadingInv_update m a h)
  refine haux msgs initialModel ?_
  intro _ hw
  simp [initialModel] at hw

/-- selInv: the selection is 0 on an empty collection and in `[0, len)` on a
non-empty one. -/
def selInv (m : Model) : Prop :=
  (m.allEmails = [] → m.selectedIdx = 0) ∧
  (m.allEmails ≠ [] → 0 ≤ m.selectedIdx ∧ m.selectedIdx < (m.allEmails.length : Int))

lemma selInv_congr {m m' : Model} (h1 : m'.allEmails = m.allEmails)
    (h2 : m'.selectedIdx = m.selectedIdx) (h : selInv m) : selInv m' := by
  unfold selInv at *
  rw [h1, h2]
  exact h

lemma selInv_update (m : Model) (msg : Msg) (h : selInv m) : selInv (update m msg) := by
  cases msg with
  | windowSize w hh =>
    simp only [update]
    split
    · split
      · exact selInv_congr (by simp) (by simp) h
      · exact selInv_congr (by simp [Model.updateStatusBar]) (by simp [Model.updateStatusBar]) h
    · exact selInv_congr (by simp) (by simp) h
  | key k =>
    have heq : update m (Msg.key k) = m.handleKey k := rfl
    rw [heq]
    have hae := (handleKey_proj m k).1
    constructor
    · intro he
      rw [hae] at he
      have h0 := h.1 he
      have hlen : m.allEmails.length = 0 := by rw [he]; rfl
      rcases handleKey_selectedIdx m k with hs | ⟨hs, hpos⟩ | ⟨hs, hlt⟩
      · rw [hs]; exact h0
      · omega
      · rw [hlen] at hlt; omega
    · intro hne
      rw [hae] at hne
      have hb := h.2 hne
      have hs := handleKey_selectedIdx m k
      rw [hae]
      rcases hs with hs | ⟨hs, hpos⟩ | ⟨hs, hlt⟩ <;> rw [hs] <;> omega
  | mouse t x y =>
    have heq : update m (Msg.mouse t x y) = m.handleMouse t x y := rfl
    rw [heq]
    have hae := (handleMouse_proj m t x y).1
    constructor
    · intro he
      rw [hae] at he
      have h0 := h.1 he
      have hlen : m.allEmails.length = 0 := by rw [he]; rfl
      rcases handleMouse_selectedIdx m t x y with hs | ⟨hs0, hs1⟩
      · rw [hs]; exact h0
      · rw [hlen] at hs1; omega
    · intro hne
      rw [hae] at hne
      have hb := h.2 hne
      rw [hae]
      rcases handleMouse_selectedIdx m t x y with hs | ⟨hs0, hs1⟩
      · rw [hs]; omega
      · omega
  | newEmail e =>
    have heq : update m (Msg.newEmail e) = m.handleNewEmail e := rfl
    rw [heq]
    constructor
    · intro he
      exfalso
      rw [(handleNewEmail_char m e).1] at he
      have hl := congrArg List.length he
      simp [sortByDateDesc_length] at hl
    · intro _
      exact handleNewEmail_selectedIdx m e
  | monitorStopped =>
    simp only [update]
    split
    · exact selInv_congr (by simp [Model.updateStatusBar]) (by simp [Model.updateStatusBar]) h
    · split
      · exact h
      · exact selInv_congr (by simp) (by simp) h
  | errorMsg s =>
    exact selInv_congr (by simp [update, Model.updateStatusError])
      (by simp [update, Model.updateStatusError]) h
  | statusTick =>
    simp only [update]
    split
    · exact selInv_congr (by simp) (by simp) h
    · exact h
  | clearTempStatus =>
    simp only [update]
    split
    · exact selInv_congr (by simp) (by simp) h
    · exact h

lemma selInv_processEvents (msgs : List Msg) : selInv (processEvents msgs) := by
  have haux : ∀ (l : List Msg) (m : Model), selInv m → selInv (l.foldl update m) := by
    intro l
    induction l with
    | nil => exact fun m h => h
    | cons a l ih => exact fun m h => ih _ (selInv_update m a h)
  refine haux msgs initialModel ⟨fun _ => rfl, fun hne => absurd rfl hne⟩

lemma ensure_window (m : Model) (hne : m.allEmails ≠ [])
    (hfit : 0 < m.getNumItemsThatFitInList)
    (h0 : 0 ≤ m.selectedIdx) (h1 : m.selectedIdx < (m.allEmails.length : Int)) :
    m.ensureSelectedVisible.viewportTopLine ≤ m.selectedIdx ∧
    m.selectedIdx < m.ensureSelectedVisible.viewportTopLine +
      m.getNumItemsThatFitInList := by
  have hlen : m.allEmails.length ≠ 0 := fun hc => hne (List.length_eq_zero.mp hc)
  unfold Model.ensureSelectedVisible
  dsimp only
  repeat' split
  all_goals dsimp only
  all_goals omega

/-- emailA: a concrete email with id "A". -/
def emailA : ProcessedEmail := { mkTestEmail "A" with internalDate := 1 }

/-- emailB: a concrete email with id "B", newer than emailA. -/
def emailB : ProcessedEmail := { mkTestEmail "B" with internalDate := 2 }

/-- C1 (amended): processing a NewMessage event always appends exactly one
entry — the new collection is a permutation of the old plus the new message —
with no id-based deduplication in the UI; uniqueness of ids relies on the
synchronizer's baseline never re-delivering an id, not on the collection. -/
theorem newEmail_append_perm (m : Model) (e : ProcessedEmail) :
    ((update m (Msg.newEmail e)).allEmails).Perm (e :: m.allEmails) := by
  have heq : update m (Msg.newEmail e) = m.handleNewEmail e := rfl
  rw [heq, (handleNewEmail_char m e).1]
  exact (sortByDateDesc_perm _).trans (List.perm_append_singleton e m.allEmails)

/-- C1 counterexample: delivering the same message id twice creates two
entries with that id — after the second NewMessage event carrying id "A" the
collection holds two entries with id "A", not one entry per distinct id. -/
theorem C1_counterexample :
    ((processEvents [Msg.newEmail emailA, Msg.newEmail emailA]).allEmails.countP
      (fun e => e.id = "A")) = 2 := by
  decide

/-- C5 (amended): the loading screen never persists with nonzero width once
data or the stopped signal exists (reachable-state invariant); Resize leaves
Loading exactly when width > 0 and (a message has arrived or MonitorStopped
has fired); NewMessage leaves Loading exactly when width > 0; but
MonitorStopped leaves Loading unconditionally, even while dimensions are
unknown. -/
theorem loading_transition_characterization :
    (∀ msgs : List Msg,
      ¬((processEvents msgs).currentView = viewState.viewLoading ∧
        0 < (processEvents msgs).width ∧
        ((processEvents msgs).allEmails ≠ [] ∨
          (processEvents msgs).isGmailMonitorDone = true))) ∧
    (∀ m : Model, (update m Msg.monitorStopped).currentView ≠ viewState.viewLoading) ∧
    (∀ (m : Model) (w h : Int), m.currentView = viewState.viewLoading →
      ((update m (Msg.windowSize w h)).currentView = viewState.viewDashboard ↔
        0 < w ∧ (m.allEmails ≠ [] ∨ m.isGmailMonitorDone = true))) ∧
    (∀ (m : Model) (e : ProcessedEmail), m.currentView = viewState.viewLoading →
      ((update m (Msg.newEmail e)).currentView = viewState.viewDashboard ↔
        0 < m.width)) := by
  refine ⟨?_, monitorStopped_view, ?_, ?_⟩
  · intro msgs ⟨hv, hw, hor⟩
    have hinv := loadingInv_processEvents msgs hv hw
    cases hor with
    | inl hne => exact hne hinv.1
    | inr hdone => rw [hinv.2] at hdone; exact Bool.false_ne_true hdone
  · intro m w h hv
    simp only [update]
    split
    · rename_i hc1
      split
      · rename_i hc2
        simp only [ensure_allEmails, ensure_done] at hc2
        simp only [setStd_currentView]
        constructor
        · intro _
          refine ⟨?_, ?_⟩
          · simp only [ensure_width] at hc1
            exact hc1.2
          · cases hc2 with
            | inl hlen => exact Or.inl (by simpa using List.length_pos.mp hlen)
            | inr hdone => exact Or.inr (by simpa using hdone)
        · intro _
          trivial
      · rename_i hc2
        simp only [ensure_allEmails, ensure_done, not_or] at hc2
        constructor
        · intro hd
          rw [show ((({m with width := w, height := h} :
              Model).ensureSelectedVisible).updateStatusBar
                "Waiting for initial emails...").currentView =
              m.currentView from by simp [Model.updateStatusBar]] at hd
          rw [hv] at hd
          exact absurd hd (by simp)
        · intro ⟨_, hor⟩
          exfalso
          cases hor with
          | inl hne =>
            have : ¬0 < m.allEmails.length := by simpa using hc2.1
            exact hne (List.length_eq_zero.mp (by omega))
          | inr hdone =>
            have : m.isGmailMonitorDone ≠ true := by simpa using hc2.2
            exact this hdone
    · rename_i hc1
      simp only [ensure_currentView, ensure_width] at hc1
      constructor
      · intro hd
        rw [show (({m with width := w, height := h} :
            Model).ensureSelectedVisible).currentView = m.currentView from by
          simp] at hd
        rw [hv] at hd
        exact absurd hd (by simp)
      · intro ⟨hw, _⟩
        exact absurd ⟨hv, hw⟩ hc1
  · intro m e hv
    have heq : update m (Msg.newEmail e) = m.handleNewEmail e := rfl
    rw [heq]
    have hview := handleNewEmail_view m e
    constructor
    · intro hd
      by_contra hw
      rw [if_neg (by
        intro ⟨_, hw'⟩
        exact hw hw')] at hview
      rw [hview, hv] at hd
      exact absurd hd (by simp)
    · intro hw
      rw [if_pos ⟨hv, hw⟩] at hview
      exact hview

/-- Witness for loading_transition_characterization: its Resize and NewMessage
characterizations applied to the initial model. -/
theorem loading_transition_characterization_witness :
    ((update initialModel (Msg.windowSize 80 24)).currentView =
        viewState.viewDashboard ↔
      0 < (80 : Int) ∧ (initialModel.allEmails ≠ [] ∨
        initialModel.isGmailMonitorDone = true)) ∧
    ((update initialModel (Msg.newEmail emailA)).currentView =
        viewState.viewDashboard ↔ 0 < initialModel.width) :=
  ⟨loading_transition_characterization.2.2.1 initialModel 80 24 rfl,
   loading_transition_characterization.2.2.2 initialModel emailA rfl⟩

/-- C5 counterexample: from the initial state (Loading, width 0 — dimensions
unknown) a MonitorStopped event moves the UI out of Loading into Dashboard,
so the transition does not require known dimensions. -/
theorem C5_counterexample :
    initialModel.width = 0 ∧
    initialModel.currentView = viewState.viewLoading ∧
    (update initialModel Msg.monitorStopped).currentView =
      viewState.viewDashboard := by
  refine ⟨rfl, rfl, ?_⟩
  decide

/-- C6 (amended): after every processed event a non-empty collection has
selectedIndex in [0, len); and ensureSelectedVisible (re)establishes
viewportTop ≤ selectedIndex < viewportTop + itemsPerPage whenever
itemsPerPage > 0 — but mouse-wheel events move viewportTop without invoking
it, so the viewport relation can fail on reachable states after a wheel
event. -/
theorem selected_index_invariant :
    (∀ msgs : List Msg, (processEvents msgs).allEmails ≠ [] →
      0 ≤ (processEvents msgs).selectedIdx ∧
      (processEvents msgs).selectedIdx <
        ((processEvents msgs).allEmails.length : Int)) ∧
    (∀ m : Model, m.allEmails ≠ [] → 0 < m.getNumItemsThatFitInList →
      0 ≤ m.selectedIdx → m.selectedIdx < (m.allEmails.length : Int) →
      m.ensureSelectedVisible.viewportTopLine ≤ m.selectedIdx ∧
      m.selectedIdx < m.ensureSelectedVisible.viewportTopLine +
        m.getNumItemsThatFitInList) :=
  ⟨fun msgs => (selInv_processEvents msgs).2, ensure_window⟩

/-- Witness for selected_index_invariant: one NewMessage event, and the
viewport relation for the resulting state. -/
theorem selected_index_invariant_witness :
    ((processEvents [Msg.windowSize 100 7, Msg.newEmail emailA]).allEmails ≠ [] ∧
      0 ≤ (processEvents [Msg.windowSize 100 7, Msg.newEmail emailA]).selectedIdx ∧
      (processEvents [Msg.windowSize 100 7, Msg.newEmail emailA]).selectedIdx <
        ((processEvents [Msg.windowSize 100 7,
          Msg.newEmail emailA]).allEmails.length : Int)) ∧
    ((processEvents [Msg.windowSize 100 7,
        Msg.newEmail emailA]).ensureSelectedVisible.viewportTopLine ≤
      (processEvents [Msg.windowSize 100 7, Msg.newEmail emailA]).selectedIdx) := by
  have hne : (processEvents [Msg.windowSize 100 7, Msg.newEmail emailA]).allEmails ≠ [] := by
    decide
  have hfit : 0 < (processEvents [Msg.windowSize 100 7,
      Msg.newEmail emailA]).getNumItemsThatFitInList := by
    decide
  have h1 := selected_index_invariant.1 [Msg.windowSize 100 7, Msg.newEmail emailA] hne
  have h2 := selected_index_invariant.2 (processEvents [Msg.windowSize 100 7,
    Msg.newEmail emailA]) hne hfit h1.1 h1.2
  exact ⟨⟨hne, h1⟩, h2.1⟩

/-- C6 counterexample: a reachable state (resize to a one-item page, two
arrivals, then one wheel-up over the list) where itemsPerPage = 1 > 0 but the
selected index lies outside the viewport window. -/
theorem C6_counterexample :
    0 < (processEvents [Msg.windowSize 100 7, Msg.newEmail emailA,
      Msg.newEmail emailB, Msg.mouse MouseEventType.wheelUp 0 0]).getNumItemsThatFitInList ∧
    (processEvents [Msg.windowSize 100 7, Msg.newEmail emailA,
      Msg.newEmail emailB, Msg.mouse MouseEventType.wheelUp 0 0]).allEmails ≠ [] ∧
    ¬((processEvents [Msg.windowSize 100 7, Msg.newEmail emailA,
        Msg.newEmail emailB, Msg.mouse MouseEventType.wheelUp 0 0]).selectedIdx <
      (processEvents [Msg.windowSize 100 7, Msg.newEmail emailA,
        Msg.newEmail emailB, Msg.mouse MouseEventType.wheelUp 0 0]).viewportTopLine +
      (processEvents [Msg.windowSize 100 7, Msg.newEmail emailA,
        Msg.newEmail emailB,
        Msg.mouse MouseEventType.wheelUp 0 0]).getNumItemsThatFitInList) := by
  decide

lemma err_preserved (m : Model) (msg : Msg) :
    m.err.isSome → ((update m msg).err).isSome := by
  intro h
  cases msg with
  | windowSize w hh =>
    simp only [update]
    repeat' split
    all_goals simpa using h
  | key k =>
    have heq : update m (Msg.key k) = m.handleKey k := rfl
    rw [heq, (handleKey_proj m k).2.2.2.1]
    exact h
  | mouse t x y =>
    have heq : update m (Msg.mouse t x y) = m.handleMouse t x y := rfl
    rw [heq, (handleMouse_proj m t x y).2.2.2.1]
    exact h
  | newEmail e =>
    have heq : update m (Msg.newEmail e) = m.handleNewEmail e := rfl
    rw [heq, (handleNewEmail_char m e).2.2.2.1]
    exact h
  | monitorStopped =>
    simp only [update]
    repeat' split
    all_goals simpa using h
  | errorMsg s => simp [update, Model.updateStatusError]
  | statusTick =>
    simp only [update]
    split
    · simpa using h
    · exact h
  | clearTempStatus =>
    simp only [update]
    split
    · simpa using h
    · exact h

/-- C7 (amended): what is sticky is the error field and hence the error view —
once set by an Error event, err is never cleared by any subsequent event; the
status-bar Error kind, however, is NOT sticky across Tick: outside Loading,
the next StatusTick with no temporary status recomputes the Normal status,
resetting the kind to Normal and replacing the text. -/
theorem err_sticky_tick_resets_status :
    (∀ (m : Model) (msg : Msg), m.err.isSome → ((update m msg).err).isSome) ∧
    (∀ m : Model, m.statusIsTemp = false →
      m.currentView ≠ viewState.viewLoading →
      (update m Msg.statusTick).statusIsError = false ∧
      (update m Msg.statusTick).statusBarText = m.standardStatusText) := by
  refine ⟨err_preserved, ?_⟩
  intro m ht hv
  have hc : m.statusIsTemp = false ∧ m.currentView ≠ viewState.viewLoading := ⟨ht, hv⟩
  simp only [update, if_pos hc]
  exact ⟨setStd_statusIsError m ht, setStd_statusBarText m ht⟩

/-- c7Model: a reachable Dashboard state carrying an Error status. -/
def c7Model : Model :=
  processEvents [Msg.windowSize 100 7, Msg.newEmail emailA, Msg.errorMsg "boom"]

/-- Witness for err_sticky_tick_resets_status at the concrete error state. -/
theorem err_sticky_tick_resets_status_witness :
    ((update c7Model Msg.statusTick).err).isSome ∧
    (update c7Model Msg.statusTick).statusIsError = false ∧
    (update c7Model Msg.statusTick).statusBarText = c7Model.standardStatusText := by
  refine ⟨err_sticky_tick_resets_status.1 c7Model Msg.statusTick (by decide), ?_, ?_⟩
  · exact (err_sticky_tick_resets_status.2 c7Model (by decide) (by decide)).1
  · exact (err_sticky_tick_resets_status.2 c7Model (by decide) (by decide)).2

/-- C7 counterexample: an Error event sets the status kind to Error, and the
very next Tick (in Dashboard view) clears it back to Normal — the Error status
kind does not persist across Tick. -/
theorem C7_counterexample :
    c7Model.statusIsError = true ∧
    (update c7Model Msg.statusTick).statusIsError = false := by
  decide

end Tmail
